import Mathlib

/-!
Verification development for the Sentinel price-alert backend.

Shallow embedding of the backend modules:
- `src/backend/app/models/alert.py` (Alert, check_condition)
- `src/backend/app/services/alert_service.py` (trigger_alert, evaluate_alerts)
- `src/backend/app/websocket/manager.py` (ConnectionManager)
- `src/backend/app/models/schemas.py` (PriceData.create)
- `src/backend/app/services/market_data.py` (FinnhubMarketDataService)
- `src/backend/app/main.py` (create_alert endpoint)

Python floats are modelled as rationals; Python `round(x, 2)` is modelled as
exact half-to-even rounding at two decimal places; datetimes are modelled as
natural-number timestamps; Python dicts are modelled as Option-valued
functions; Python sets as Finsets.
-/

namespace Sentinel

attribute [local semireducible] Rat.mul Rat.add Rat.sub Rat.inv

/-- Conditions of an alert rule, from `models/alert.py` (AlertCondition). -/
inductive AlertCondition where
  | above
  | below
deriving DecidableEq

/-- The Alert row, from `models/alert.py` (class Alert). -/
structure Alert where
  id : ℕ
  symbol : String
  condition : AlertCondition
  target_price : ℚ
  is_triggered : Bool
  is_active : Bool
  created_at : ℕ
  triggered_at : Option ℕ
deriving DecidableEq

/-- Embedding of `Alert.check_condition` from `models/alert.py`. -/
def check_condition (a : Alert) (current_price : ℚ) : Bool :=
  if !a.is_active || a.is_triggered then
    false
  else
    match a.condition with
    | AlertCondition.above => decide (current_price ≥ a.target_price)
    | AlertCondition.below => decide (current_price ≤ a.target_price)

/-- The state mutation performed by `AlertService.trigger_alert` and by the
trigger branch of `AlertService.evaluate_alerts` (`alert_service.py`):
set `is_triggered = True` and `triggered_at = now`. -/
def trigger_alert (now : ℕ) (a : Alert) : Alert :=
  { a with is_triggered := true, triggered_at := some now }

/-- Whether one loop iteration of `AlertService.evaluate_alerts` fires for an
alert: the DB query selects `is_active ∧ ¬is_triggered`, the loop requires the
symbol to be present in the price dict and `check_condition` to pass. -/
def fires (prices : String → Option ℚ) (a : Alert) : Bool :=
  a.is_active && !a.is_triggered &&
    match prices a.symbol with
    | some p => check_condition a p
    | none => false

/-- Effect of one `evaluate_alerts` call on a single stored alert. -/
def evalOne (now : ℕ) (prices : String → Option ℚ) (a : Alert) : Alert :=
  if fires prices a then trigger_alert now a else a

/-- Embedding of `AlertService.evaluate_alerts` (`alert_service.py`): the DB is
a list of alerts; the first component is the updated DB, the second the list of
newly triggered alerts returned to the caller. -/
def evaluate_alerts (now : ℕ) (prices : String → Option ℚ) (db : List Alert) :
    List Alert × List Alert :=
  (db.map (evalOne now prices), (db.filter (fires prices)).map (trigger_alert now))

/-- A sequence of `evaluate_alerts` calls, threading the stored alerts. -/
def runEvals (steps : List (ℕ × (String → Option ℚ))) (db : List Alert) : List Alert :=
  steps.foldl (fun d step => (evaluate_alerts step.1 step.2 d).1) db

/-- The per-call triggered lists produced by a sequence of `evaluate_alerts`
calls, threading the stored alerts between calls. -/
def runOutputs (db : List Alert) : List (ℕ × (String → Option ℚ)) → List (List Alert)
  | [] => []
  | step :: rest =>
      (evaluate_alerts step.1 step.2 db).2 ::
        runOutputs (evaluate_alerts step.1 step.2 db).1 rest

/-- The inline ABOVE/BELOW comparison performed by the `create_alert` endpoint
in `main.py` (the `should_trigger` computation). -/
def inlineShouldTrigger (condition : AlertCondition) (target_price current_price : ℚ) : Bool :=
  if condition = AlertCondition.above ∧ current_price ≥ target_price then true
  else if condition = AlertCondition.below ∧ current_price ≤ target_price then true
  else false

/-- Python `round` on an exact rational: round to the nearest integer, halves
to the even neighbour (banker's rounding). -/
def pyRound (x : ℚ) : ℤ :=
  if Int.fract x = 1 / 2 then
    (if (⌊x⌋ : ℤ) % 2 = 0 then ⌊x⌋ else ⌊x⌋ + 1)
  else round x

/-- Python `round(x, 2)`: round to two decimal places. -/
def pyRound2 (x : ℚ) : ℚ :=
  (pyRound (x * 100) : ℚ) / 100

/-- The price snapshot, from `models/schemas.py` (class PriceData). -/
structure PriceData where
  symbol : String
  price : ℚ
  previous_close : ℚ
  change : ℚ
  change_percent : ℚ
  volume : ℤ
  timestamp : ℕ
deriving DecidableEq

/-- Embedding of the factory `PriceData.create` from `models/schemas.py`:
`change = round(price - previous_close, 2)` and
`change_percent = round((change / previous_close) * 100, 2) if previous_close else 0`. -/
def PriceData.create (symbol : String) (price previous_close : ℚ) (volume : ℤ)
    (timestamp : ℕ) : PriceData :=
  let change := pyRound2 (price - previous_close)
  let change_percent :=
    if previous_close ≠ 0 then pyRound2 (change / previous_close * 100) else 0
  { symbol := symbol, price := price, previous_close := previous_close,
    change := change, change_percent := change_percent,
    volume := volume, timestamp := timestamp }

/-- State of `ConnectionManager` (`websocket/manager.py`): the set of active
connections (sessions are numbered) and the subscriptions dict. -/
@[ext]
structure ManagerState where
  active : Finset ℕ
  subs : ℕ → Option (Finset String)

/-- Embedding of `ConnectionManager.disconnect`: `set.discard` plus
`dict.pop(ws, None)`. -/
def ManagerState.disconnect (st : ManagerState) (ws : ℕ) : ManagerState :=
  { active := st.active.erase ws
    subs := fun w => if w = ws then none else st.subs w }

/-- Embedding of the `connection_count` property. -/
def connection_count (st : ManagerState) : ℕ :=
  st.active.card

/-- Embedding of `ConnectionManager.broadcast`: if there are no connections,
return; otherwise attempt a send to every active connection, collecting the
connections whose send raised, then disconnect each of those. `failsSend c`
tells whether the send to connection `c` raises. The second component is the
set of connections that actually received the message. -/
def broadcast (st : ManagerState) (failsSend : ℕ → Bool) : ManagerState × Finset ℕ :=
  if st.active = ∅ then (st, ∅)
  else
    let delivered := st.active.filter (fun c => failsSend c = false)
    let disconnected := (st.active.filter (fun c => failsSend c = true)).sort (· ≤ ·)
    (disconnected.foldl (fun s c => s.disconnect c) st, delivered)

/-- Fine-grained model of the for-loop in `ConnectionManager.broadcast`, which
iterates `self._active_connections` — the live registry — directly. `registry i`
is the registry contents when the loop advances for the i-th time (concurrent
register/unregister during an awaited send may have changed it); the result is
the list of sessions the broadcast attempts to deliver to. -/
def liveIterAttempts (registry : ℕ → List ℕ) : ℕ → ℕ → List ℕ
  | 0, _ => []
  | fuel + 1, i =>
      match (registry i).get? i with
      | none => []
      | some c => c :: liveIterAttempts registry fuel (i + 1)

/-- The attempts a snapshot-taking broadcast would make: the registry contents
at loop entry, unaffected by concurrent mutation. -/
def snapshotAttempts (registry : ℕ → List ℕ) : List ℕ :=
  registry 0

/-- TRACKED_SYMBOLS from `services/market_data.py` (the dict keys, in order). -/
def TRACKED_SYMBOLS : List String :=
  ["AAPL", "GOOGL", "TSLA", "MSFT", "AMZN", "NVDA", "META", "JPM", "V", "SPY"]

/-- The `estimated` dict inside `_initialize_estimated_prices`. -/
def estimatedTable (s : String) : Option ℚ :=
  (([("AAPL", (175 : ℚ)), ("GOOGL", 142), ("TSLA", 245), ("MSFT", 378),
     ("AMZN", 178), ("NVDA", 495), ("META", 385), ("JPM", 195),
     ("V", 275), ("SPY", 475)] : List (String × ℚ)).lookup s)

/-- The seed price used for a tracked symbol: `estimated.get(symbol, 100.0)`. -/
def estimatedPrice (s : String) : ℚ :=
  (estimatedTable s).getD 100

/-- State of `FinnhubMarketDataService`: the price/close/volume dicts and the
connection flags. -/
structure MarketState where
  current_prices : String → Option ℚ
  previous_close : String → Option ℚ
  volumes : String → Option ℤ
  connected : Bool
  use_mock : Bool

/-- The service state before `_initialize_estimated_prices` runs. -/
def emptyMarketState : MarketState :=
  { current_prices := fun _ => none, previous_close := fun _ => none,
    volumes := fun _ => none, connected := false, use_mock := false }

/-- One iteration of the loop in `_initialize_estimated_prices`: seed the
current price, previous close and volume of one symbol. -/
def seedSymbol (st : MarketState) (s : String) : MarketState :=
  let p := (estimatedTable s).getD 100
  { st with
    current_prices := fun x => if x = s then some p else st.current_prices x,
    previous_close := fun x => if x = s then some p else st.previous_close x,
    volumes := fun x => if x = s then some 0 else st.volumes x }

/-- Embedding of `_initialize_estimated_prices`. -/
def initialize_estimated_prices (st : MarketState) : MarketState :=
  TRACKED_SYMBOLS.foldl seedSymbol st

/-- The service state right after `__init__`. -/
def initMarketState : MarketState :=
  initialize_estimated_prices emptyMarketState

/-- Embedding of `FinnhubMarketDataService.connect`: with no API key, or when
the upstream connection attempt raises, fall back to mock data; otherwise mark
the service connected. -/
def connect (hasApiKey : Bool) (connectFails : Bool) (st : MarketState) : MarketState :=
  if !hasApiKey then { st with use_mock := true }
  else if connectFails then { st with use_mock := true, connected := false }
  else { st with connected := true }

/-- One iteration of the loop in `_mock_update_prices`: apply the random-walk
factor `1 + delta s` to the current price (rounded to 2 decimals) and add the
random volume increment `vinc s`. -/
def mockStep (delta : String → ℚ) (vinc : String → ℤ) (st : MarketState) (s : String) :
    MarketState :=
  let current := (st.current_prices s).getD 0
  { st with
    current_prices :=
      fun x => if x = s then some (pyRound2 (current * (1 + delta s))) else st.current_prices x,
    volumes := fun x => if x = s then some ((st.volumes s).getD 0 + vinc s) else st.volumes x }

/-- Embedding of `_mock_update_prices`, with the draws of `random.uniform` and
`random.randint` supplied as functions. -/
def mock_update_prices (delta : String → ℚ) (vinc : String → ℤ) (st : MarketState) :
    MarketState :=
  TRACKED_SYMBOLS.foldl (mockStep delta vinc) st

/-- A run of the `stream_prices` loop in synthetic fallback mode: one
`_mock_update_prices` per tick. -/
def runMockTicks (ticks : List ((String → ℚ) × (String → ℤ))) (st : MarketState) :
    MarketState :=
  ticks.foldl (fun s t => mock_update_prices t.1 t.2 s) st

/-- Embedding of `FinnhubMarketDataService.get_current_price`: absent for a
symbol outside the tracked set, otherwise a snapshot built from the dicts with
`.get(symbol, 0)` defaults. -/
def get_current_price (st : MarketState) (now : ℕ) (symbol : String) : Option PriceData :=
  if symbol ∈ TRACKED_SYMBOLS then
    some (PriceData.create symbol ((st.current_prices symbol).getD 0)
      ((st.previous_close symbol).getD 0) ((st.volumes symbol).getD 0) now)
  else
    none

/-- Embedding of `FinnhubMarketDataService.get_all_prices`. -/
def get_all_prices (st : MarketState) (now : ℕ) : List PriceData :=
  TRACKED_SYMBOLS.filterMap (fun s => get_current_price st now s)

/-- Python `str.upper` applied per character: extensionally `String.toUpper`,
written structurally so that it evaluates. -/
def pyUpper (s : String) : String :=
  ⟨s.data.map Char.toUpper⟩

/-- Embedding of `AlertService.create_alert`: a fresh alert row with the
defaults of the Alert model (`is_triggered = False`, `is_active = True`,
`triggered_at = None`); the service uppercases the symbol. -/
def AlertService.create_alert (newId : ℕ) (now : ℕ) (symbol : String)
    (condition : AlertCondition) (target_price : ℚ) : Alert :=
  { id := newId, symbol := pyUpper symbol, condition := condition,
    target_price := target_price, is_triggered := false, is_active := true,
    created_at := now, triggered_at := none }

/-- Embedding of the `create_alert` endpoint in `main.py`: create the alert
(the endpoint uppercases the symbol, the service uppercases again), then
immediately check it against the latest cached price, triggering it through
`AlertService.trigger_alert` when the inline comparison passes. -/
def create_alert_endpoint (mkt : MarketState) (now newId : ℕ) (symbol : String)
    (condition : AlertCondition) (target_price : ℚ) : Alert :=
  let alert := AlertService.create_alert newId now (pyUpper symbol) condition target_price
  match get_current_price mkt now alert.symbol with
  | some pd =>
      if inlineShouldTrigger alert.condition alert.target_price pd.price then
        trigger_alert now alert
      else alert
  | none => alert

/-- Concrete alert already triggered, for witness instances. -/
def demoAlertTriggered : Alert :=
  { id := 0, symbol := "AAPL", condition := AlertCondition.above, target_price := 100,
    is_triggered := true, is_active := true, created_at := 0, triggered_at := some 5 }

/-- Concrete pending ABOVE-100 rule. -/
def demoAboveRule : Alert :=
  { id := 1, symbol := "AAPL", condition := AlertCondition.above, target_price := 100,
    is_triggered := false, is_active := true, created_at := 0, triggered_at := none }

/-- Concrete pending BELOW-50 rule. -/
def demoBelowRule : Alert :=
  { id := 2, symbol := "TSLA", condition := AlertCondition.below, target_price := 50,
    is_triggered := false, is_active := true, created_at := 0, triggered_at := none }

/-- A price dict holding a single symbol. -/
def singlePrice (s : String) (q : ℚ) : String → Option ℚ :=
  fun x => if x = s then some q else none

/-- Concrete manager state with three sessions and no subscriptions. -/
def demoManager : ManagerState :=
  { active := {1, 2, 3}, subs := fun _ => none }

/-- A send that raises exactly for session 2. -/
def demoFails (c : ℕ) : Bool :=
  c == 2

/-- Registry trace for the live-iteration scenario: the broadcast starts with
registry `[1]`; during the awaited send to session 1 a concurrent `connect`
registers session 3, so from the next loop advance the registry is `[1, 3]`. -/
def demoRegistrySeq (i : ℕ) : List ℕ :=
  if i = 0 then [1] else [1, 3]

/-! Helper lemmas about the alert evaluator. -/

/-- One evaluation step never clears the triggered flag. -/
theorem evalOne_mono (now : ℕ) (prices : String → Option ℚ) (a : Alert)
    (h : a.is_triggered = true) : (evalOne now prices a).is_triggered = true := by
  unfold evalOne
  split
  · rfl
  · exact h

/-- One evaluation step preserves the triggered-at/triggered agreement. -/
theorem evalOne_inv (now : ℕ) (prices : String → Option ℚ) (a : Alert)
    (h : a.triggered_at.isSome = a.is_triggered) :
    (evalOne now prices a).triggered_at.isSome = (evalOne now prices a).is_triggered := by
  unfold evalOne
  split
  · rfl
  · exact h

/-- A sequence of evaluations keeps the number of stored alerts. -/
theorem runEvals_length (steps : List (ℕ × (String → Option ℚ))) (db : List Alert) :
    (runEvals steps db).length = db.length := by
  induction steps generalizing db with
  | nil => rfl
  | cons s rest ih =>
      have h := ih ((evaluate_alerts s.1 s.2 db).1)
      simp only [runEvals, List.foldl_cons] at h ⊢
      rw [h]
      simp [evaluate_alerts]

/-- A triggered alert stays triggered across any evaluation sequence. -/
theorem runEvals_get_mono (steps : List (ℕ × (String → Option ℚ))) (db : List Alert)
    (i : ℕ) (h : (db.get? i).map Alert.is_triggered = some true) :
    ((runEvals steps db).get? i).map Alert.is_triggered = some true := by
  induction steps generalizing db with
  | nil => exact h
  | cons s rest ih =>
      simp only [runEvals, List.foldl_cons] at ih ⊢
      refine ih _ ?_
      simp only [evaluate_alerts, List.get?_map]
      cases hh : db.get? i with
      | none => rw [hh] at h; simp at h
      | some a =>
          rw [hh] at h
          simp only [Option.map_some'] at h ⊢
          exact congrArg some (evalOne_mono s.1 s.2 a (Option.some.inj h))

/-- Evaluation sequences preserve the triggered-at/triggered agreement. -/
theorem runEvals_inv (steps : List (ℕ × (String → Option ℚ))) (db : List Alert)
    (h : ∀ a ∈ db, a.triggered_at.isSome = a.is_triggered) :
    ∀ a ∈ runEvals steps db, a.triggered_at.isSome = a.is_triggered := by
  induction steps generalizing db with
  | nil => exact h
  | cons s rest ih =>
      simp only [runEvals, List.foldl_cons] at ih ⊢
      refine ih _ ?_
      intro b hb
      simp only [evaluate_alerts, List.mem_map] at hb
      obtain ⟨a, ha, rfl⟩ := hb
      exact evalOne_inv s.1 s.2 a (h a ha)

/-- An alert can fire only while untriggered. -/
theorem fires_not_triggered (prices : String → Option ℚ) (a : Alert)
    (h : fires prices a = true) : a.is_triggered = false := by
  unfold fires at h
  cases ht : a.is_triggered
  · rfl
  · rw [ht] at h
    simp at h

/-- Every alert in the returned triggered list comes from a stored alert that
was untriggered before the call. -/
theorem evaluate_snd_source (now : ℕ) (prices : String → Option ℚ) (db : List Alert)
    (b : Alert) (hb : b ∈ (evaluate_alerts now prices db).2) :
    ∃ a, a ∈ db ∧ a.is_triggered = false ∧ b = trigger_alert now a := by
  simp only [evaluate_alerts, List.mem_map, List.mem_filter] at hb
  obtain ⟨a, ⟨haD, hfires⟩, rfl⟩ := hb
  exact ⟨a, haD, fires_not_triggered prices a hfires, rfl⟩

/-- The condition check of a triggered alert is false. -/
theorem check_condition_of_triggered (a : Alert) (p : ℚ) (h : a.is_triggered = true) :
    check_condition a p = false := by
  unfold check_condition
  rw [h]
  simp

/-- C1: over any sequence of `evaluate_alerts` calls, a rule transitions to
triggered at most once and never back: the store keeps its size, a triggered
rule stays triggered at its position, `check_condition` is false for a
triggered rule, every member of a returned triggered list was untriggered
before that call (so a triggered rule is never included again), and
`triggered_at` is set exactly when `is_triggered` is true. -/
theorem alert_trigger_monotone
    (db : List Alert) (steps : List (ℕ × (String → Option ℚ)))
    (hinv : ∀ a ∈ db, a.triggered_at.isSome = a.is_triggered) :
    (runEvals steps db).length = db.length ∧
    (∀ i : ℕ, (db.get? i).map Alert.is_triggered = some true →
      ((runEvals steps db).get? i).map Alert.is_triggered = some true) ∧
    (∀ (a : Alert) (p : ℚ), a.is_triggered = true → check_condition a p = false) ∧
    (∀ (now : ℕ) (prices : String → Option ℚ) (b : Alert),
      b ∈ (evaluate_alerts now prices (runEvals steps db)).2 →
      ∃ a, a ∈ runEvals steps db ∧ a.is_triggered = false ∧ b = trigger_alert now a) ∧
    (∀ a ∈ runEvals steps db, a.triggered_at.isSome = a.is_triggered) :=
  ⟨runEvals_length steps db,
   fun i h => runEvals_get_mono steps db i h,
   fun a p h => check_condition_of_triggered a p h,
   fun now prices b hb => evaluate_snd_source now prices _ b hb,
   runEvals_inv steps db hinv⟩

/-- Witness for C1 at a concrete store and evaluation sequence. -/
theorem alert_trigger_monotone_witness :
    ((runEvals [(6, singlePrice "AAPL" 200)] [demoAlertTriggered]).get? 0).map
        Alert.is_triggered = some true ∧
    check_condition demoAlertTriggered 150 = false := by
  have h := alert_trigger_monotone [demoAlertTriggered] [(6, singlePrice "AAPL" 200)]
    (by decide)
  exact ⟨h.2.1 0 (by decide), h.2.2.1 demoAlertTriggered 150 (by decide)⟩

/-- C3: an ABOVE rule triggers exactly when the price reached the target and a
BELOW rule exactly when it fell to the target (boundary included), for pending
active rules; concretely, ABOVE 100 over prices 98, 99, 100 produces triggered
lists [], [], [rule], and BELOW 50 over 60, 55, 49 likewise fires only on the
last evaluation. -/
theorem check_condition_boundary :
    (∀ (a : Alert) (p : ℚ), check_condition a p = true ↔
      (a.is_active = true ∧ a.is_triggered = false ∧
        ((a.condition = AlertCondition.above ∧ a.target_price ≤ p) ∨
         (a.condition = AlertCondition.below ∧ p ≤ a.target_price)))) ∧
    runOutputs [demoAboveRule]
        [(1, singlePrice "AAPL" 98), (2, singlePrice "AAPL" 99),
         (3, singlePrice "AAPL" 100)] =
      [[], [], [trigger_alert 3 demoAboveRule]] ∧
    runOutputs [demoBelowRule]
        [(1, singlePrice "TSLA" 60), (2, singlePrice "TSLA" 55),
         (3, singlePrice "TSLA" 49)] =
      [[], [], [trigger_alert 3 demoBelowRule]] := by
  refine ⟨?_, by decide, by decide⟩
  intro a p
  unfold check_condition
  cases ha : a.is_active <;> cases ht : a.is_triggered <;> cases hc : a.condition <;>
    simp [ha, ht, hc, ge_iff_le, decide_eq_true_iff]

/-- C8: for a freshly created rule (active, untriggered) the inline comparison
of the create endpoint agrees with `check_condition` at every price. -/
theorem inline_check_matches_check_condition (a : Alert) (p : ℚ)
    (hact : a.is_active = true) (htrig : a.is_triggered = false) :
    inlineShouldTrigger a.condition a.target_price p = check_condition a p := by
  cases hc : a.condition with
  | above =>
      by_cases hp : a.target_price ≤ p <;>
        simp [inlineShouldTrigger, check_condition, hact, htrig, hc, hp, ge_iff_le]
  | below =>
      by_cases hp : p ≤ a.target_price <;>
        simp [inlineShouldTrigger, check_condition, hact, htrig, hc, hp]

/-- Witness for C8 at the concrete ABOVE-100 rule and price 105. -/
theorem inline_check_matches_witness :
    inlineShouldTrigger demoAboveRule.condition demoAboveRule.target_price 105 =
      check_condition demoAboveRule 105 :=
  inline_check_matches_check_condition demoAboveRule 105 (by decide) (by decide)

/-- C5 counterexample: the stored change is the rounded difference, so it can
differ from the exact difference price - previous_close. -/
theorem pricedata_change_not_exact :
    (PriceData.create "AAPL" (100001 / 1000) 100 0 0).change ≠ 100001 / 1000 - 100 := by
  decide

/-- C5 (amended): `change` is the difference rounded to 2 decimals,
`change_percent` is the percent change of the rounded difference rounded to 2
decimals (0 when previous_close is 0), both computed at construction; the
110/100 snapshot yields change 10 and change_percent 10. -/
theorem pricedata_create_computed :
    (∀ (s : String) (price previous_close : ℚ) (volume : ℤ) (now : ℕ),
      (PriceData.create s price previous_close volume now).change =
        pyRound2 (price - previous_close) ∧
      (PriceData.create s price previous_close volume now).change_percent =
        (if previous_close ≠ 0 then
          pyRound2 (pyRound2 (price - previous_close) / previous_close * 100)
        else 0) ∧
      (PriceData.create s price previous_close volume now).price = price ∧
      (PriceData.create s price previous_close volume now).previous_close =
        previous_close) ∧
    (PriceData.create "AAPL" 110 100 0 0).change = 10 ∧
    (PriceData.create "AAPL" 110 100 0 0).change_percent = 10 ∧
    (∀ (s : String) (price : ℚ) (volume : ℤ) (now : ℕ),
      (PriceData.create s price 0 volume now).change_percent = 0) := by
  refine ⟨fun s price previous_close volume now => ⟨rfl, rfl, rfl, rfl⟩,
    by decide, by decide, ?_⟩
  intro s price volume now
  simp [PriceData.create]

/-- C7: iterating the live registry is observably different from iterating a
snapshot taken at loop entry: with registry [1] at entry and a concurrent
registration of session 3 during the send to session 1, the live iteration of
the code attempts sessions [1, 3] while a snapshot broadcast attempts [1]. -/
theorem broadcast_live_iteration_attempts :
    liveIterAttempts demoRegistrySeq 5 0 = [1, 3] ∧
    snapshotAttempts demoRegistrySeq = [1] ∧
    liveIterAttempts demoRegistrySeq 5 0 ≠ snapshotAttempts demoRegistrySeq := by
  refine ⟨by decide, by decide, by decide⟩

/-! Helper lemmas about the connection manager. -/

/-- Folding `disconnect` acts on the registry as folding `Finset.erase`. -/
theorem foldl_disconnect_active (L : List ℕ) (st : ManagerState) :
    (L.foldl (fun s c => s.disconnect c) st).active =
      L.foldl (fun A c => A.erase c) st.active := by
  induction L generalizing st with
  | nil => rfl
  | cons c L ih => exact ih (st.disconnect c)

/-- Membership after erasing every element of a list. -/
theorem mem_foldl_erase (L : List ℕ) (A : Finset ℕ) (x : ℕ) :
    x ∈ L.foldl (fun B c => B.erase c) A ↔ x ∈ A ∧ x ∉ L := by
  induction L generalizing A with
  | nil => simp
  | cons c L ih =>
      rw [List.foldl_cons, ih]
      simp only [Finset.mem_erase, List.mem_cons]
      tauto

/-- C2: when exactly one session k raises on send, `broadcast` still delivers
to every other session, removes k from the registry, and the connection count
drops by exactly one. -/
theorem broadcast_isolates_failure
    (st : ManagerState) (k : ℕ) (failsSend : ℕ → Bool)
    (hk : k ∈ st.active) (hf : ∀ c, failsSend c = true ↔ c = k) :
    (broadcast st failsSend).2 = st.active.erase k ∧
    (∀ c ∈ st.active, c ≠ k → c ∈ (broadcast st failsSend).2) ∧
    (broadcast st failsSend).1.active = st.active.erase k ∧
    k ∉ (broadcast st failsSend).1.active ∧
    connection_count (broadcast st failsSend).1 + 1 = connection_count st := by
  have hne : st.active ≠ ∅ := Finset.ne_empty_of_mem hk
  have hdel : (broadcast st failsSend).2 = st.active.erase k := by
    simp only [broadcast, if_neg hne]
    ext x
    simp only [Finset.mem_filter, Finset.mem_erase]
    constructor
    · rintro ⟨hx, hfx⟩
      refine ⟨fun hxk => ?_, hx⟩
      rw [hxk, (hf k).mpr rfl] at hfx
      exact Bool.noConfusion hfx
    · rintro ⟨hxk, hx⟩
      refine ⟨hx, ?_⟩
      cases hcase : failsSend x
      · rfl
      · exact absurd ((hf x).mp hcase) hxk
  have hact : (broadcast st failsSend).1.active = st.active.erase k := by
    simp only [broadcast, if_neg hne]
    rw [foldl_disconnect_active]
    ext x
    rw [mem_foldl_erase]
    simp only [Finset.mem_sort, Finset.mem_filter, Finset.mem_erase]
    constructor
    · rintro ⟨hx, hnot⟩
      exact ⟨fun hxk => hnot ⟨hx, by rw [hxk]; exact (hf k).mpr rfl⟩, hx⟩
    · rintro ⟨hxk, hx⟩
      exact ⟨hx, fun hmem => hxk ((hf x).mp hmem.2)⟩
  refine ⟨hdel, ?_, hact, ?_, ?_⟩
  · intro c hc hck
    rw [hdel]
    exact Finset.mem_erase.mpr ⟨hck, hc⟩
  · rw [hact]
    exact Finset.not_mem_erase k st.active
  · simp only [connection_count]
    rw [hact]
    exact Finset.card_erase_add_one hk

/-- Witness for C2 at a three-session registry where session 2 fails. -/
theorem broadcast_isolates_failure_witness :
    (broadcast demoManager demoFails).2 = demoManager.active.erase 2 ∧
    connection_count (broadcast demoManager demoFails).1 + 1 =
      connection_count demoManager := by
  have h := broadcast_isolates_failure demoManager 2 demoFails (by decide)
    (fun c => by simp [demoFails])
  exact ⟨h.1, h.2.2.2.2⟩

/-- C10: `disconnect` is idempotent, and on a session outside the registry it
leaves the registry and the connection count unchanged; if the session has no
subscription entry either, it is a complete no-op. -/
theorem disconnect_idempotent (st : ManagerState) (ws : ℕ) :
    (st.disconnect ws).disconnect ws = st.disconnect ws ∧
    (ws ∉ st.active →
      (st.disconnect ws).active = st.active ∧
      connection_count (st.disconnect ws) = connection_count st) ∧
    (ws ∉ st.active → st.subs ws = none → st.disconnect ws = st) := by
  refine ⟨?_, ?_, ?_⟩
  · apply ManagerState.ext
    · simp [ManagerState.disconnect, Finset.erase_idem]
    · funext w
      by_cases h : w = ws <;> simp [ManagerState.disconnect, h]
  · intro hws
    constructor
    · simp [ManagerState.disconnect, Finset.erase_eq_of_not_mem hws]
    · simp [connection_count, ManagerState.disconnect, Finset.erase_eq_of_not_mem hws]
  · intro hws hsub
    apply ManagerState.ext
    · simp [ManagerState.disconnect, Finset.erase_eq_of_not_mem hws]
    · funext w
      by_cases h : w = ws
      · subst h
        simp [ManagerState.disconnect, hsub]
      · simp [ManagerState.disconnect, h]

/-- Witness for C10 at the three-session registry and the absent session 7. -/
theorem disconnect_idempotent_witness :
    (demoManager.disconnect 7).disconnect 7 = demoManager.disconnect 7 ∧
    (demoManager.disconnect 7).active = demoManager.active ∧
    demoManager.disconnect 7 = demoManager := by
  have h := disconnect_idempotent demoManager 7
  exact ⟨h.1, (h.2.1 (by decide)).1, h.2.2 (by decide) rfl⟩

/-! Helper lemmas about the market data service. -/

/-- A mock price update never touches the fallback flag. -/
theorem foldl_mockStep_use_mock (d : String → ℚ) (v : String → ℤ) (L : List String)
    (st : MarketState) : (L.foldl (mockStep d v) st).use_mock = st.use_mock := by
  induction L generalizing st with
  | nil => rfl
  | cons s L ih => exact ih (mockStep d v st s)

/-- A run of mock ticks never touches the fallback flag. -/
theorem runMockTicks_use_mock (ticks : List ((String → ℚ) × (String → ℤ)))
    (st : MarketState) : (runMockTicks ticks st).use_mock = st.use_mock := by
  induction ticks generalizing st with
  | nil => rfl
  | cons t ticks ih =>
      have h := ih (mock_update_prices t.1 t.2 st)
      rw [runMockTicks] at h ⊢
      rw [List.foldl_cons, h, mock_update_prices, foldl_mockStep_use_mock]

/-- A failed connection attempt engages the synthetic fallback. -/
theorem connect_failure_mock (hasApiKey connectFails : Bool) (st : MarketState)
    (h : hasApiKey = false ∨ connectFails = true) :
    (connect hasApiKey connectFails st).use_mock = true := by
  cases hasApiKey with
  | false => simp [connect]
  | true =>
      cases connectFails with
      | false => rcases h with h | h <;> simp at h
      | true => simp [connect]

/-- Every tracked symbol contributes a snapshot carrying its own symbol. -/
theorem get_all_symbols_aux (st : MarketState) (now : ℕ) :
    ∀ L : List String, (∀ s ∈ L, s ∈ TRACKED_SYMBOLS) →
      (L.filterMap (fun s => get_current_price st now s)).map PriceData.symbol = L := by
  intro L
  induction L with
  | nil => intro _; rfl
  | cons s L ih =>
      intro h
      have hs : s ∈ TRACKED_SYMBOLS := h s (List.mem_cons_self s L)
      simp only [List.filterMap_cons, get_current_price, if_pos hs, List.map_cons]
      exact congrArg (List.cons s) (ih fun x hx => h x (List.mem_cons_of_mem s hx))

/-- C6: a failed upstream connection attempt (missing key or connection error)
engages the synthetic fallback, the fallback flag survives any number of
synthetic ticks, and `get_all_prices` always yields one snapshot per tracked
symbol, so the stream is never empty. -/
theorem fallback_nonempty_stream
    (hasApiKey connectFails : Bool) (st : MarketState)
    (hfail : hasApiKey = false ∨ connectFails = true) :
    (connect hasApiKey connectFails st).use_mock = true ∧
    (∀ ticks : List ((String → ℚ) × (String → ℤ)),
      (runMockTicks ticks (connect hasApiKey connectFails st)).use_mock = true) ∧
    (∀ (st2 : MarketState) (now : ℕ),
      (get_all_prices st2 now).map PriceData.symbol = TRACKED_SYMBOLS) := by
  refine ⟨connect_failure_mock hasApiKey connectFails st hfail, ?_, ?_⟩
  · intro ticks
    rw [runMockTicks_use_mock]
    exact connect_failure_mock hasApiKey connectFails st hfail
  · intro st2 now
    exact get_all_symbols_aux st2 now TRACKED_SYMBOLS (fun s hs => hs)

/-- Witness for C6 at a missing API key, one synthetic tick of the initial
state, and tick time 3. -/
theorem fallback_nonempty_stream_witness :
    (connect false true initMarketState).use_mock = true ∧
    (get_all_prices
        (runMockTicks [(fun _ => mkRat 1 1000, fun _ => 5000)]
          (connect false true initMarketState)) 3).map PriceData.symbol =
      TRACKED_SYMBOLS := by
  have h := fallback_nonempty_stream false true initMarketState (Or.inl rfl)
  exact ⟨h.1, h.2.2 _ 3⟩

/-- The seeding loop fills the current-price dict of every seeded symbol. -/
theorem foldl_seed_current (L : List String) (st : MarketState) (x : String) :
    (L.foldl seedSymbol st).current_prices x =
      if x ∈ L then some (estimatedPrice x) else st.current_prices x := by
  induction L generalizing st with
  | nil => simp
  | cons s L ih =>
      rw [List.foldl_cons, ih]
      by_cases hxL : x ∈ L
      · simp [hxL]
      · by_cases hxs : x = s
        · subst hxs
          simp [hxL, seedSymbol, estimatedPrice]
        · simp [hxL, hxs, seedSymbol]

/-- The seeding loop fills the previous-close dict of every seeded symbol. -/
theorem foldl_seed_previous (L : List String) (st : MarketState) (x : String) :
    (L.foldl seedSymbol st).previous_close x =
      if x ∈ L then some (estimatedPrice x) else st.previous_close x := by
  induction L generalizing st with
  | nil => simp
  | cons s L ih =>
      rw [List.foldl_cons, ih]
      by_cases hxL : x ∈ L
      · simp [hxL]
      · by_cases hxs : x = s
        · subst hxs
          simp [hxL, seedSymbol, estimatedPrice]
        · simp [hxL, hxs, seedSymbol]

/-- The seeding loop fills the volume dict of every seeded symbol with 0. -/
theorem foldl_seed_volumes (L : List String) (st : MarketState) (x : String) :
    (L.foldl seedSymbol st).volumes x =
      if x ∈ L then some 0 else st.volumes x := by
  induction L generalizing st with
  | nil => simp
  | cons s L ih =>
      rw [List.foldl_cons, ih]
      by_cases hxL : x ∈ L
      · simp [hxL]
      · by_cases hxs : x = s
        · subst hxs
          simp [hxL, seedSymbol]
        · simp [hxL, hxs, seedSymbol]

/-- C9: from construction onward every tracked symbol has a price: the
constructor pre-seeds estimated price, previous close and zero volume for all
tracked symbols, `get_current_price` on the initial state returns the
fabricated estimate snapshot for every tracked symbol, and on any state it
returns a snapshot exactly for the tracked symbols. -/
theorem tracked_symbols_preseeded :
    (∀ s : String, initMarketState.current_prices s =
      if s ∈ TRACKED_SYMBOLS then some (estimatedPrice s) else none) ∧
    (∀ s : String, initMarketState.previous_close s =
      if s ∈ TRACKED_SYMBOLS then some (estimatedPrice s) else none) ∧
    (∀ (s : String) (now : ℕ), get_current_price initMarketState now s =
      if s ∈ TRACKED_SYMBOLS then
        some (PriceData.create s (estimatedPrice s) (estimatedPrice s) 0 now)
      else none) ∧
    (∀ (st : MarketState) (now : ℕ) (s : String),
      (get_current_price st now s).isSome ↔ s ∈ TRACKED_SYMBOLS) := by
  have hc : ∀ s : String, initMarketState.current_prices s =
      if s ∈ TRACKED_SYMBOLS then some (estimatedPrice s) else none := by
    intro s
    rw [initMarketState, initialize_estimated_prices, foldl_seed_current]
    rfl
  have hp : ∀ s : String, initMarketState.previous_close s =
      if s ∈ TRACKED_SYMBOLS then some (estimatedPrice s) else none := by
    intro s
    rw [initMarketState, initialize_estimated_prices, foldl_seed_previous]
    rfl
  have hv : ∀ s : String, initMarketState.volumes s =
      if s ∈ TRACKED_SYMBOLS then some 0 else none := by
    intro s
    rw [initMarketState, initialize_estimated_prices, foldl_seed_volumes]
    rfl
  refine ⟨hc, hp, ?_, ?_⟩
  · intro s now
    by_cases hs : s ∈ TRACKED_SYMBOLS
    · rw [get_current_price, hc s, hp s, hv s]
      simp [hs]
    · rw [get_current_price, if_neg hs, if_neg hs]
  · intro st2 now s
    rw [get_current_price]
    by_cases hs : s ∈ TRACKED_SYMBOLS <;> simp [hs]

/-- C4: the create endpoint evaluates the new rule against the latest cached
price inside the create operation: when the inline condition is satisfied by
the cached price the returned rule is already triggered with `triggered_at`
set to the creation time, otherwise it is returned pending. -/
theorem create_alert_immediate
    (mkt : MarketState) (now newId : ℕ) (symbol : String) (condition : AlertCondition)
    (target_price : ℚ) (pd : PriceData)
    (hpd : get_current_price mkt now (pyUpper (pyUpper symbol)) = some pd) :
    (inlineShouldTrigger condition target_price pd.price = true →
      (create_alert_endpoint mkt now newId symbol condition target_price).is_triggered
          = true ∧
      (create_alert_endpoint mkt now newId symbol condition target_price).triggered_at
          = some now) ∧
    (inlineShouldTrigger condition target_price pd.price = false →
      (create_alert_endpoint mkt now newId symbol condition target_price).is_triggered
          = false ∧
      (create_alert_endpoint mkt now newId symbol condition target_price).triggered_at
          = none) := by
  have key : create_alert_endpoint mkt now newId symbol condition target_price =
      if inlineShouldTrigger condition target_price pd.price then
        trigger_alert now
          (AlertService.create_alert newId now (pyUpper symbol) condition target_price)
      else AlertService.create_alert newId now (pyUpper symbol) condition target_price := by
    simp only [create_alert_endpoint, AlertService.create_alert]
    rw [hpd]
  constructor
  · intro htr
    rw [key, if_pos htr]
    exact ⟨rfl, rfl⟩
  · intro htr
    rw [key, if_neg (by simp [htr])]
    exact ⟨rfl, rfl⟩

/-- Witness for C4: creating ABOVE 100 on AAPL while the cached estimate is
175 returns an already-triggered rule. -/
theorem create_alert_immediate_witness :
    (create_alert_endpoint initMarketState 7 42 "AAPL" AlertCondition.above 100).is_triggered
        = true ∧
    (create_alert_endpoint initMarketState 7 42 "AAPL" AlertCondition.above 100).triggered_at
        = some 7 :=
  (create_alert_immediate initMarketState 7 42 "AAPL" AlertCondition.above 100
      (PriceData.create "AAPL" 175 175 0 7) (by rfl)).1 (by decide)

end Sentinel
